import Mathlib

/-!
Verification development for the GNR Surgicals inventory application.

The data model and the frontend logic (form validation, status-count
helpers) are embedded directly from the TypeScript sources
(`EquipmentForm` in src/unnamed/part_006, the status helpers in
src/unnamed/part_003 and frontend/src/App.tsx).  The backend route
handlers (Create / Update / PatchStatus / List / Summary) are imported by
`backend/server.js` but their files are not part of the available
sources, so those operations are modelled from the specification, reusing
the embedded validation logic where the spec says it coincides.
-/

namespace Gnr

/-- The fixed category enumeration of the `Equipment` type
(frontend `types/Equipment.ts`). -/
inductive Category where
  | instruments
  | consumables
  | diagnostic
  | furniture
  | electronics
deriving DecidableEq, Repr

/-- The three status buckets of an equipment record. -/
inductive Status where
  | available
  | in_use
  | maintenance
deriving DecidableEq, Repr

/-- The `statusCounts` triple of an equipment record.  Counts are modelled
as integers: the JavaScript values are numbers and the interesting
behaviour (negative candidates from a signed delta) lives in ℤ. -/
structure StatusCounts where
  available : Int
  in_use : Int
  maintenance : Int
deriving DecidableEq, Repr

/-- Read the count of the named bucket (`counts[status]` in the source). -/
def StatusCounts.get (c : StatusCounts) : Status → Int
  | .available => c.available
  | .in_use => c.in_use
  | .maintenance => c.maintenance

/-- Write the count of the named bucket (`{...counts, [status]: v}`). -/
def StatusCounts.set (c : StatusCounts) : Status → Int → StatusCounts
  | .available, v => { c with available := v }
  | .in_use, v => { c with in_use := v }
  | .maintenance, v => { c with maintenance := v }

/-- `sumCounts` from src/unnamed/part_003: `Object.values(obj).reduce((a,b) => a + Number(b), 0)`
over the three bucket fields. -/
def sumCounts (c : StatusCounts) : Int :=
  c.available + c.in_use + c.maintenance

/-- `applyChangeToCounts` from src/unnamed/part_003 (lines 407-413):
`{ ...counts, [status]: counts[status] + change }` — shift the named
bucket by `change`, leaving the other fields as they are. -/
def applyChangeToCounts (counts : StatusCounts) (status : Status) (change : Int) :
    StatusCounts :=
  counts.set status (counts.get status + change)

/-- The form state of `EquipmentForm` (src/unnamed/part_006): the fields
that `validateForm` inspects.  `costPerUnit` is a decimal, modelled as ℚ. -/
structure FormData where
  name : String
  category : Category
  quantity : Int
  costPerUnit : Rat
  notes : String
  statusCounts : StatusCounts
deriving DecidableEq, Repr

/-- The `newErrors` record built by `validateForm`: at most one message per
form field key.  A `none` field corresponds to an absent key in the
JavaScript object. -/
structure FormErrors where
  name : Option String
  quantity : Option String
  costPerUnit : Option String
  statusCounts : Option String
deriving DecidableEq, Repr

/-- Whitespace as JavaScript `String.prototype.trim` removes it (the
characters occurring in practice; the full JS set also has unicode
spaces). -/
def isJsSpace (c : Char) : Bool :=
  c == ' ' || c == '\t' || c == '\n' || c == '\r'

/-- JavaScript `s.trim()`: strip leading and trailing whitespace. -/
def jsTrim (s : String) : String :=
  String.mk (((s.toList.dropWhile isJsSpace).reverse.dropWhile isJsSpace).reverse)

/-- The sum-mismatch message of `validateForm`
(src/unnamed/part_006 line 61). -/
def sumMismatchMsg (totalStatus quantity : Int) : String :=
  s!"Status counts ({totalStatus}) must equal total quantity ({quantity})"

/-- The negative-count message of `validateForm`
(src/unnamed/part_006 line 65). -/
def negativeCountMsg : String := "Status counts cannot be negative"

/-- `validateForm` from src/unnamed/part_006 (lines 44-70), embedded check
by check in source order.  Note that the negative-count check writes to
the same `statusCounts` key as the sum-mismatch check and therefore
overwrites it when both fire. -/
def validateForm (f : FormData) : FormErrors :=
  let e0 : FormErrors := ⟨none, none, none, none⟩
  let e1 := if jsTrim f.name = "" then
    { e0 with name := some "Equipment name is required" } else e0
  let e2 := if f.quantity < 0 then
    { e1 with quantity := some "Quantity must be non-negative" } else e1
  let e3 := if f.costPerUnit < 0 then
    { e2 with costPerUnit := some "Cost per unit must be non-negative" } else e2
  let totalStatus := f.statusCounts.available + f.statusCounts.in_use +
    f.statusCounts.maintenance
  let e4 := if totalStatus ≠ f.quantity then
    { e3 with statusCounts := some (sumMismatchMsg totalStatus f.quantity) } else e3
  let e5 := if f.statusCounts.available < 0 ∨ f.statusCounts.in_use < 0 ∨
      f.statusCounts.maintenance < 0 then
    { e4 with statusCounts := some negativeCountMsg } else e4
  e5

/-- `Object.keys(newErrors).length === 0`: the form is accepted when no
error key was set. -/
def formAccepted (f : FormData) : Bool :=
  let e := validateForm f
  e.name.isNone && e.quantity.isNone && e.costPerUnit.isNone && e.statusCounts.isNone

/-- The list of error messages present in a `FormErrors` record, in field
order. -/
def reportedMessages (e : FormErrors) : List String :=
  [e.name, e.quantity, e.costPerUnit, e.statusCounts].filterMap id

/-- A persisted equipment record, with the serialized fields
`_id, name, category, quantity, costPerUnit, statusCounts, notes,
totalCost, createdAt, updatedAt` of the `Equipment` interface. -/
structure Equipment where
  id : Nat
  name : String
  category : Category
  quantity : Int
  costPerUnit : Rat
  statusCounts : StatusCounts
  notes : String
  totalCost : Rat
  createdAt : Nat
  updatedAt : Nat
deriving DecidableEq, Repr

/-- The persistent equipment collection together with the identifier
counter used to assign fresh ids at creation. -/
structure Store where
  records : List Equipment
  nextId : Nat
deriving DecidableEq, Repr

/-- The empty store. -/
def Store.empty : Store := ⟨[], 0⟩

/-- The error taxonomy of the API: `ValidationError` (with the specific
failing messages) and `NotFound`. -/
inductive ApiError where
  | validation (msgs : List String)
  | notFound
deriving DecidableEq, Repr

/-- Look up a record by identifier. -/
def Store.find (s : Store) (id : Nat) : Option Equipment :=
  s.records.find? (fun r => r.id == id)

/-- Replace the record with the given identifier by `newRec`. -/
def Store.replace (s : Store) (id : Nat) (newRec : Equipment) : Store :=
  { s with records := s.records.map (fun r => if r.id == id then newRec else r) }

/-- Modelled from the spec: the backend Create handler
(`routes/equipment.js`, imported by backend/server.js but absent from the
sources) — "validates: name non-empty; quantity ≥ 0; costPerUnit ≥ 0;
statusCounts all ≥ 0; sum of statusCounts == quantity. Signals
ValidationError (with the specific failing rule) if any check fails;
otherwise assigns identifier and timestamps, persists, returns the new
record."  The validation checks are exactly those of the embedded
`validateForm`; `totalCost` is the derived field `quantity × costPerUnit`. -/
def createEquipment (s : Store) (f : FormData) (now : Nat) :
    Except ApiError (Store × Equipment) :=
  if formAccepted f then
    let r : Equipment :=
      { id := s.nextId
        name := f.name
        category := f.category
        quantity := f.quantity
        costPerUnit := f.costPerUnit
        statusCounts := f.statusCounts
        notes := f.notes
        totalCost := (f.quantity : Rat) * f.costPerUnit
        createdAt := now
        updatedAt := now }
    .ok (⟨s.records ++ [r], s.nextId + 1⟩, r)
  else
    .error (.validation (reportedMessages (validateForm f)))

/-- Modelled from the spec: the backend Update handler (absent from the
sources) — "same validation as Create, applied to the merged/replacement
field set; signals NotFound if id absent, ValidationError on invariant
violation; otherwise persists and returns the updated record." -/
def updateEquipment (s : Store) (id : Nat) (f : FormData) (now : Nat) :
    Except ApiError (Store × Equipment) :=
  match s.find id with
  | none => .error .notFound
  | some old =>
    if formAccepted f then
      let r : Equipment :=
        { old with
          name := f.name
          category := f.category
          quantity := f.quantity
          costPerUnit := f.costPerUnit
          statusCounts := f.statusCounts
          notes := f.notes
          totalCost := (f.quantity : Rat) * f.costPerUnit
          updatedAt := now }
      .ok (s.replace id r, r)
    else
      .error (.validation (reportedMessages (validateForm f)))

/-- Modelled from the spec: the backend PatchStatus handler (absent from
the sources) — "Computes the candidate new count = current count + delta.
Signals ValidationError if the candidate count would be negative, or if
any status count is negative, or if the resulting sum across all three
counts does not equal the record's current quantity (quantity is not
changed by this operation)."  The bucket shift is the embedded
`applyChangeToCounts` of src/unnamed/part_003; the same guards appear in
the `handleUpdateStatus` caller of frontend/src/App.tsx. -/
def patchStatus (s : Store) (id : Nat) (status : Status) (delta : Int)
    (now : Nat) : Except ApiError (Store × Equipment) :=
  match s.find id with
  | none => .error .notFound
  | some old =>
    let candidate := old.statusCounts.get status + delta
    let newCounts := applyChangeToCounts old.statusCounts status delta
    if candidate < 0 ∨ newCounts.available < 0 ∨ newCounts.in_use < 0 ∨
        newCounts.maintenance < 0 then
      .error (.validation [negativeCountMsg])
    else if sumCounts newCounts ≠ old.quantity then
      .error (.validation [sumMismatchMsg (sumCounts newCounts) old.quantity])
    else
      let r := { old with statusCounts := newCounts, updatedAt := now }
      .ok (s.replace id r, r)

/-- Modelled from the spec: the backend Delete handler (absent from the
sources) — "removes the record; signals NotFound if absent." -/
def deleteEquipment (s : Store) (id : Nat) : Except ApiError Store :=
  match s.find id with
  | none => .error .notFound
  | some _ => .ok { s with records := s.records.filter (fun r => r.id ≠ id) }

/-- One mutating API request against the store. -/
inductive Op where
  | create (f : FormData) (now : Nat)
  | update (id : Nat) (f : FormData) (now : Nat)
  | patch (id : Nat) (status : Status) (delta : Int) (now : Nat)
  | delete (id : Nat)

/-- The store after one request: on any error the store is unchanged. -/
def applyOp (s : Store) : Op → Store
  | .create f now =>
    match createEquipment s f now with
    | .ok (s', _) => s'
    | .error _ => s
  | .update id f now =>
    match updateEquipment s id f now with
    | .ok (s', _) => s'
    | .error _ => s
  | .patch id status delta now =>
    match patchStatus s id status delta now with
    | .ok (s', _) => s'
    | .error _ => s
  | .delete id =>
    match deleteEquipment s id with
    | .ok s' => s'
    | .error _ => s

/-- The store after a sequence of requests. -/
def runOps (s : Store) (ops : List Op) : Store :=
  ops.foldl applyOp s

/-- The persisted-record invariant of the data model: all three status
counts are non-negative and they sum to the record's quantity. -/
def recordInvariant (r : Equipment) : Prop :=
  0 ≤ r.statusCounts.available ∧ 0 ≤ r.statusCounts.in_use ∧
    0 ≤ r.statusCounts.maintenance ∧
    r.statusCounts.available + r.statusCounts.in_use +
      r.statusCounts.maintenance = r.quantity

instance (r : Equipment) : Decidable (recordInvariant r) := by
  unfold recordInvariant; infer_instance

/-- One entry of `categoryTotals` (`CategoryTotals` in
frontend `types/Equipment.ts`): `{count, units, cost}`. -/
structure CatTotal where
  count : Nat
  units : Int
  cost : Rat
deriving DecidableEq, Repr

/-- The shape returned by `GET /stats/summary` (`EquipmentStats` in
frontend `types/Equipment.ts`). -/
structure EquipmentStats where
  totalEquipmentTypes : Nat
  totalUnits : Int
  totalCost : Rat
  categoryTotals : Category → CatTotal
  statusTotals : StatusCounts

/-- The five category enum values, in declaration order. -/
def allCategories : List Category :=
  [.instruments, .consumables, .diagnostic, .furniture, .electronics]

/-- The `{count, units, cost}` rollup of one category over a record set. -/
def categoryTotal (records : List Equipment) (c : Category) : CatTotal :=
  let inCat := records.filter (fun r => r.category == c)
  { count := inCat.length
    units := (inCat.map (fun r => r.quantity)).sum
    cost := (inCat.map (fun r => r.totalCost)).sum }

/-- Modelled from the spec: the backend Summary handler
(`routes/stats.js`, imported by backend/server.js but absent from the
sources) — "returns: totalEquipmentTypes (count of distinct records),
totalUnits (sum of quantity across records), totalCost (sum of totalCost
across records), categoryTotals (mapping category → {count, units,
cost}), statusTotals (mapping status → summed count across all records)".
The grouping key is the category enum value. -/
def summary (records : List Equipment) : EquipmentStats :=
  { totalEquipmentTypes := records.length
    totalUnits := (records.map (fun r => r.quantity)).sum
    totalCost := (records.map (fun r => r.totalCost)).sum
    categoryTotals := categoryTotal records
    statusTotals :=
      { available := (records.map (fun r => r.statusCounts.available)).sum
        in_use := (records.map (fun r => r.statusCounts.in_use)).sum
        maintenance := (records.map (fun r => r.statusCounts.maintenance)).sum } }

/-- The optional filters of `GET /equipment` (the query parameters built
by `fetchEquipment` in src/unnamed/part_003: `category`, `search`,
`status`; an `all` selection sends no parameter, modelled as `none`). -/
structure ListFilter where
  category : Option Category
  status : Option Status
  search : Option String
deriving Repr

/-- The unfiltered list request. -/
def noFilter : ListFilter := ⟨none, none, none⟩

/-- `true` when `needle` occurs as a contiguous run inside `hay`. -/
def subOf (needle : List Char) : List Char → Bool
  | [] => needle.isEmpty
  | c :: t => needle.isPrefixOf (c :: t) || subOf needle t

/-- Case-insensitive substring match. -/
def containsText (hay needle : String) : Bool :=
  subOf needle.toLower.toList hay.toLower.toList

/-- Modelled from the spec: the List filter predicate of the backend
List handler (absent from the sources) — category is an exact match,
status selects records whose named status-count field is active
(a positive count), search is a case-insensitive substring match over the
text fields (of which the serialized record carries `name`). -/
def matchesFilter (flt : ListFilter) (r : Equipment) : Bool :=
  (match flt.category with
   | none => true
   | some c => r.category == c) &&
  (match flt.status with
   | none => true
   | some st => decide (0 < r.statusCounts.get st)) &&
  (match flt.search with
   | none => true
   | some s => containsText r.name s)

/-- Modelled from the spec: the backend List handler (absent from the
sources) — "Returns a sequence of records … No error on empty result —
returns an empty sequence", keeping the stored order. -/
def listEquipment (flt : ListFilter) (records : List Equipment) :
    List Equipment :=
  records.filter (matchesFilter flt)

/-- The `counts` sub-object probed by `readStatusCounts`
(src/unnamed/part_003): each field is a number or absent. -/
structure RawCounts where
  available : Option Rat
  in_use : Option Rat
  maintenance : Option Rat
deriving DecidableEq, Repr

/-- An incoming item as `readStatusCounts` sees it: either a `counts`
object or flat top-level count fields, each a number or absent.  A JS
object is always truthy, so `item?.counts` is truthy exactly when the
`counts` field is present (`some`). -/
structure RawItem where
  counts : Option RawCounts
  available : Option Rat
  in_use : Option Rat
  maintenance : Option Rat
deriving DecidableEq, Repr

/-- A triple of plain numbers, the return shape of `readStatusCounts`. -/
structure QCounts where
  available : Rat
  in_use : Rat
  maintenance : Rat
deriving DecidableEq, Repr

/-- `Number(x || 0)` on a numeric-or-absent field: an absent field gives
`Number(undefined || 0) = 0`; a present number `q` gives `q` when truthy
and `0` when falsy — and the only falsy number is `0` itself, so the
present case is the identity. -/
def numOrZero : Option Rat → Rat
  | none => 0
  | some q => q

/-- `readStatusCounts` from src/unnamed/part_003 (lines 392-405): prefer
the `counts` object when the field is truthy, otherwise read the flat
top-level fields; every read goes through `Number(x || 0)`. -/
def readStatusCounts (item : RawItem) : QCounts :=
  match item.counts with
  | some c =>
    { available := numOrZero c.available
      in_use := numOrZero c.in_use
      maintenance := numOrZero c.maintenance }
  | none =>
    { available := numOrZero item.available
      in_use := numOrZero item.in_use
      maintenance := numOrZero item.maintenance }

/-- The numeric value of a leading run of decimal digits, or `none` when
the run is empty. -/
def parseDigits (cs : List Char) : Option Nat :=
  let ds := cs.takeWhile Char.isDigit
  if ds.isEmpty then none
  else some (ds.foldl (fun a c => a * 10 + (c.toNat - 48)) 0)

/-- JavaScript `parseInt(s)` on a base-10 string: skip surrounding
whitespace, accept an optional sign, read the leading digit run and
ignore any trailing text; `none` stands for `NaN`. -/
def jsParseInt (s : String) : Option Int :=
  match s.trim.toList with
  | '-' :: rest => (parseDigits rest).map (fun n => -(n : Int))
  | '+' :: rest => (parseDigits rest).map (fun n => (n : Int))
  | cs => (parseDigits cs).map (fun n => (n : Int))

/-- `parseInt(e.target.value) || 0` at the status-count inputs of
`EquipmentForm` (src/unnamed/part_006 lines 242, 254, 266): an
unparseable value (`NaN`, falsy) is coerced to `0`, as is a parsed `0`. -/
def numberInputValue (raw : String) : Int :=
  (jsParseInt raw).getD 0

/-- `handleStatusCountChange` from src/unnamed/part_006 (lines 104-119):
store `Math.max(0, value)` into the named status-count field of the form
state. -/
def handleStatusCountChange (fd : FormData) (status : Status) (value : Int) :
    FormData :=
  { fd with statusCounts := fd.statusCounts.set status (max 0 value) }

/-- One raw edit of a status-count input: the `onChange` handler parses
the field text and calls `handleStatusCountChange`. -/
def statusEdit (fd : FormData) (status : Status) (raw : String) : FormData :=
  handleStatusCountChange fd status (numberInputValue raw)

/-- The form state after a sequence of status-count edits. -/
def runStatusEdits (fd : FormData) (edits : List (Status × String)) : FormData :=
  edits.foldl (fun a e => statusEdit a e.1 e.2) fd

/-- The initial `formData` state of `EquipmentForm`
(src/unnamed/part_006 lines 16-27). -/
def initialFormData : FormData :=
  { name := ""
    category := .instruments
    quantity := 0
    costPerUnit := 0
    notes := ""
    statusCounts := ⟨0, 0, 0⟩ }

/-- The acceptance condition that `validateForm` actually implements:
trimmed name non-empty, non-negative quantity, cost and counts, and the
counts summing to the quantity. -/
def acceptCond (f : FormData) : Prop :=
  jsTrim f.name ≠ "" ∧ 0 ≤ f.quantity ∧ 0 ≤ f.costPerUnit ∧
    0 ≤ f.statusCounts.available ∧ 0 ≤ f.statusCounts.in_use ∧
    0 ≤ f.statusCounts.maintenance ∧
    f.statusCounts.available + f.statusCounts.in_use +
      f.statusCounts.maintenance = f.quantity

instance (f : FormData) : Decidable (acceptCond f) := by
  unfold acceptCond; infer_instance

/-- The acceptance condition as the spec claim words it: the name is
compared against the empty string literally, with no trimming. -/
def claimedAcceptCond (f : FormData) : Prop :=
  f.name ≠ "" ∧ 0 ≤ f.quantity ∧ 0 ≤ f.costPerUnit ∧
    0 ≤ f.statusCounts.available ∧ 0 ≤ f.statusCounts.in_use ∧
    0 ≤ f.statusCounts.maintenance ∧
    f.statusCounts.available + f.statusCounts.in_use +
      f.statusCounts.maintenance = f.quantity

instance (f : FormData) : Decidable (claimedAcceptCond f) := by
  unfold claimedAcceptCond; infer_instance

/-- The negative-count rule of `validateForm`: some bucket is below 0. -/
def negViolated (c : StatusCounts) : Prop :=
  c.available < 0 ∨ c.in_use < 0 ∨ c.maintenance < 0

instance (c : StatusCounts) : Decidable (negViolated c) := by
  unfold negViolated; infer_instance

theorem formAccepted_iff (f : FormData) :
    formAccepted f = true ↔ acceptCond f := by
  simp only [formAccepted, validateForm, acceptCond]
  split_ifs <;> (simp_all [not_lt, Option.isNone]; try omega)

theorem createEquipment_ok_iff (s : Store) (f : FormData) (now : Nat) :
    (∃ p, createEquipment s f now = .ok p) ↔ formAccepted f = true := by
  by_cases h : formAccepted f <;> simp [createEquipment, h]

theorem updateEquipment_ok_iff (s : Store) (id : Nat) (f : FormData)
    (now : Nat) (r : Equipment) (hfind : s.find id = some r) :
    (∃ p, updateEquipment s id f now = .ok p) ↔ formAccepted f = true := by
  by_cases h : formAccepted f <;> simp [updateEquipment, hfind, h]

/-- The Create input of the spec scenario: `{name:"Forceps",
category:"Instruments", quantity:10, costPerUnit:5.0,
statusCounts:{available:10, in_use:0, maintenance:0}}`. -/
def forcepsInput : FormData :=
  { name := "Forceps"
    category := .instruments
    quantity := 10
    costPerUnit := 5
    notes := ""
    statusCounts := ⟨10, 0, 0⟩ }

/-- An input whose name is a single space: non-empty as a string, yet
rejected because `validateForm` trims before testing. -/
def blankNameForm : FormData :=
  { name := " "
    category := .instruments
    quantity := 0
    costPerUnit := 0
    notes := ""
    statusCounts := ⟨0, 0, 0⟩ }

/-- C2 counterexample: the input with name `" "` satisfies every
condition of the claim (its name is a non-empty string, all the numeric
checks pass), yet Create signals ValidationError instead of accepting,
because the source trims the name before testing it. -/
theorem c2_create_accept_counterexample :
    claimedAcceptCond blankNameForm ∧
    createEquipment Store.empty blankNameForm 0 =
      .error (.validation ["Equipment name is required"]) := by
  exact ⟨by decide, rfl⟩

/-- C2 (amended): Create accepts an input exactly when the trimmed name
is non-empty, quantity, costPerUnit and all three status counts are
non-negative, and the counts sum to the quantity; otherwise it signals
ValidationError carrying the failing rules' messages.  Update applies the
same acceptance condition whenever the identifier is present. -/
theorem c2_accept_iff (f : FormData) (s : Store) (now : Nat) :
    ((∃ p, createEquipment s f now = .ok p) ↔ acceptCond f) ∧
    (¬acceptCond f → createEquipment s f now =
      .error (.validation (reportedMessages (validateForm f)))) ∧
    (∀ id r, s.find id = some r →
      ((∃ p, updateEquipment s id f now = .ok p) ↔ acceptCond f)) := by
  refine ⟨?_, ?_, ?_⟩
  · rw [createEquipment_ok_iff, formAccepted_iff]
  · intro hna
    have hacc : formAccepted f = false := by
      rcases Bool.eq_false_or_eq_true (formAccepted f) with h | h
      · exact absurd ((formAccepted_iff f).mp h) hna
      · exact h
    simp [createEquipment, hacc]
  · intro id r hfind
    rw [updateEquipment_ok_iff s id f now r hfind, formAccepted_iff]

/-- C2 witness: the Forceps input of the spec scenario is accepted. -/
theorem c2_accept_iff_witness :
    ∃ p, createEquipment Store.empty forcepsInput 0 = .ok p :=
  ((c2_accept_iff forcepsInput Store.empty 0).1).mpr (by decide)

/-- A form input violating both statusCounts rules at once: the counts
sum to -1 ≠ 5 and the available bucket is negative. -/
def bothFailForm : FormData :=
  { name := "Scalpel"
    category := .instruments
    quantity := 5
    costPerUnit := 0
    notes := ""
    statusCounts := ⟨-1, 0, 0⟩ }

/-- C8 counterexample: on an input violating both the sum-mismatch rule
and the negative-count rule, the reported errors consist of the
negative-count message alone — the sum-mismatch rule is not named,
because both checks write to the same `statusCounts` error key and the
later check overwrites the earlier one. -/
theorem c8_both_rules_counterexample :
    (bothFailForm.statusCounts.available + bothFailForm.statusCounts.in_use +
      bothFailForm.statusCounts.maintenance ≠ bothFailForm.quantity) ∧
    negViolated bothFailForm.statusCounts ∧
    reportedMessages (validateForm bothFailForm) = [negativeCountMsg] ∧
    sumMismatchMsg (-1) 5 ∉ reportedMessages (validateForm bothFailForm) := by
  exact ⟨by decide, by decide, by decide, by decide⟩

/-- C8 (amended): each failing check stores a message naming its own
rule under its field's key, but the two statusCounts rules share one
error key, so when the sum-mismatch and the negative-count rule fail
together, only the negative-count message is reported. -/
theorem c8_rule_messages (f : FormData) :
    (jsTrim f.name = "" →
      (validateForm f).name = some "Equipment name is required") ∧
    (f.quantity < 0 →
      (validateForm f).quantity = some "Quantity must be non-negative") ∧
    (f.costPerUnit < 0 →
      (validateForm f).costPerUnit = some "Cost per unit must be non-negative") ∧
    (negViolated f.statusCounts →
      (validateForm f).statusCounts = some negativeCountMsg) ∧
    (¬negViolated f.statusCounts →
      f.statusCounts.available + f.statusCounts.in_use +
        f.statusCounts.maintenance ≠ f.quantity →
      (validateForm f).statusCounts = some (sumMismatchMsg
        (f.statusCounts.available + f.statusCounts.in_use +
          f.statusCounts.maintenance) f.quantity)) := by
  unfold validateForm
  simp only [negViolated]
  split_ifs <;> simp_all

/-- C8 witness: at the concrete both-rules input, the reported
statusCounts message is the negative-count one. -/
theorem c8_rule_messages_witness :
    (validateForm bothFailForm).statusCounts = some negativeCountMsg :=
  (c8_rule_messages bothFailForm).2.2.2.1 (by decide)

/-- Every persisted record satisfies the status-count invariant. -/
def storeInvariant (s : Store) : Prop :=
  ∀ r ∈ s.records, recordInvariant r

theorem mem_replace {s : Store} {id : Nat} {nr r' : Equipment}
    (h : r' ∈ (s.replace id nr).records) : r' = nr ∨ r' ∈ s.records := by
  simp only [Store.replace, List.mem_map] at h
  obtain ⟨a, ha, heq⟩ := h
  by_cases hid : (a.id == id) = true
  · rw [if_pos hid] at heq
    exact Or.inl heq.symm
  · rw [if_neg hid] at heq
    exact Or.inr (heq ▸ ha)

theorem acceptCond_recordInvariant {f : FormData} (h : acceptCond f)
    {r : Equipment} (hsc : r.statusCounts = f.statusCounts)
    (hq : r.quantity = f.quantity) : recordInvariant r := by
  obtain ⟨-, -, -, h1, h2, h3, h4⟩ := h
  exact ⟨hsc ▸ h1, hsc ▸ h2, hsc ▸ h3, by rw [hsc, hq]; exact h4⟩

theorem applyOp_invariant (s : Store) (op : Op) (h : storeInvariant s) :
    storeInvariant (applyOp s op) := by
  cases op with
  | create f now =>
    by_cases hf : formAccepted f
    · intro r hr
      simp only [applyOp, createEquipment, if_pos hf, List.mem_append,
        List.mem_singleton] at hr
      rcases hr with hr | rfl
      · exact h r hr
      · exact acceptCond_recordInvariant ((formAccepted_iff f).mp hf) rfl rfl
    · simpa [applyOp, createEquipment, hf] using h
  | update id f now =>
    cases hfind : s.find id with
    | none => simpa [applyOp, updateEquipment, hfind] using h
    | some old =>
      by_cases hf : formAccepted f
      · intro r hr
        simp only [applyOp, updateEquipment, hfind, if_pos hf] at hr
        rcases mem_replace hr with rfl | hr
        · exact acceptCond_recordInvariant ((formAccepted_iff f).mp hf) rfl rfl

        · exact h r hr
      · simpa [applyOp, updateEquipment, hfind, hf] using h
  | patch id st delta now =>
    cases hfind : s.find id with
    | none => simpa [applyOp, patchStatus, hfind] using h
    | some old =>
      set nc := applyChangeToCounts old.statusCounts st delta with hnc
      by_cases hbad : old.statusCounts.get st + delta < 0 ∨ nc.available < 0 ∨
          nc.in_use < 0 ∨ nc.maintenance < 0
      · simpa [applyOp, patchStatus, hfind, hbad] using h
      · by_cases hsum : sumCounts nc ≠ old.quantity
        · simpa [applyOp, patchStatus, hfind, hbad, hsum] using h
        · intro r hr
          simp only [applyOp, patchStatus, hfind, ← hnc, if_neg hbad,
            if_neg hsum] at hr
          rcases mem_replace hr with rfl | hr
          · push_neg at hbad hsum
            exact ⟨hbad.2.1, hbad.2.2.1, hbad.2.2.2, hsum⟩
          · exact h r hr
  | delete id =>
    cases hfind : s.find id with
    | none => simpa [applyOp, deleteEquipment, hfind] using h
    | some old =>
      intro r hr
      simp only [applyOp, deleteEquipment, hfind, List.mem_filter] at hr
      exact h r hr.1

/-- C1: starting from a store whose records all satisfy the invariant,
after any sequence of Create / Update / PatchStatus / Delete requests
every persisted record still has three non-negative status counts that
sum to its quantity. -/
theorem c1_statusSum_invariant (s : Store) (ops : List Op)
    (h : storeInvariant s) : storeInvariant (runOps s ops) := by
  induction ops generalizing s with
  | nil => exact h
  | cons op t ih => exact ih (applyOp s op) (applyOp_invariant s op h)

/-- A sequence of requests exercising every mutating operation. -/
def demoOps : List Op :=
  [.create forcepsInput 0, .patch 0 .in_use 1 1, .update 0 forcepsInput 2,
   .delete 5]

/-- C1 witness: the invariant after running the demo request sequence
from the empty store. -/
theorem c1_statusSum_invariant_witness :
    storeInvariant (runOps Store.empty demoOps) :=
  c1_statusSum_invariant Store.empty demoOps
    (by intro r hr; simp [Store.empty] at hr)

/-- A record whose maintenance bucket is empty, for the PatchStatus
scenario. -/
def maintRec : Equipment :=
  { id := 0
    name := "Monitor"
    category := .diagnostic
    quantity := 5
    costPerUnit := 2
    statusCounts := ⟨5, 0, 0⟩
    notes := ""
    totalCost := 10
    createdAt := 0
    updatedAt := 0 }

/-- A store holding just `maintRec`. -/
def maintStore : Store := ⟨[maintRec], 1⟩

/-- C3: when the candidate count (current count + delta) would be
negative, PatchStatus signals ValidationError and the store — hence the
record — is unchanged. -/
theorem c3_patch_never_negative (s : Store) (id : Nat) (st : Status)
    (delta : Int) (now : Nat) (r : Equipment) (hfind : s.find id = some r)
    (hneg : r.statusCounts.get st + delta < 0) :
    patchStatus s id st delta now = .error (.validation [negativeCountMsg]) ∧
    applyOp s (.patch id st delta now) = s := by
  have h1 : patchStatus s id st delta now =
      .error (.validation [negativeCountMsg]) := by
    simp only [patchStatus, hfind]
    rw [if_pos (Or.inl hneg)]
  exact ⟨h1, by simp [applyOp, h1]⟩

/-- C3 witness: the spec scenario — maintenance count 0, delta -1 —
signals ValidationError and leaves the store as it was. -/
theorem c3_patch_never_negative_witness :
    patchStatus maintStore 0 .maintenance (-1) 1 =
      .error (.validation [negativeCountMsg]) ∧
    applyOp maintStore (.patch 0 .maintenance (-1) 1) = maintStore :=
  c3_patch_never_negative maintStore 0 .maintenance (-1) 1 maintRec rfl
    (by decide)

theorem get_applyChange_same (c : StatusCounts) (st : Status) (d : Int) :
    (applyChangeToCounts c st d).get st = c.get st + d := by
  cases st <;> rfl

theorem get_applyChange_other (c : StatusCounts) (st st2 : Status) (d : Int)
    (h : st2 ≠ st) : (applyChangeToCounts c st d).get st2 = c.get st2 := by
  cases st <;> cases st2 <;>
    first
    | exact absurd rfl h
    | rfl

/-- C4: a successful PatchStatus only shifts the named bucket by delta:
the returned record keeps the old quantity, the other two buckets are
untouched, and its three counts sum to that (unchanged) quantity. -/
theorem c4_patch_frame (s : Store) (id : Nat) (st : Status) (delta : Int)
    (now : Nat) (s' : Store) (r' : Equipment)
    (hok : patchStatus s id st delta now = .ok (s', r')) :
    ∃ r, s.find id = some r ∧
      r'.quantity = r.quantity ∧
      r'.statusCounts = applyChangeToCounts r.statusCounts st delta ∧
      r'.statusCounts.get st = r.statusCounts.get st + delta ∧
      (∀ st2, st2 ≠ st → r'.statusCounts.get st2 = r.statusCounts.get st2) ∧
      sumCounts r'.statusCounts = r'.quantity := by
  cases hfind : s.find id with
  | none => simp [patchStatus, hfind] at hok
  | some old =>
    refine ⟨old, rfl, ?_⟩
    simp only [patchStatus, hfind] at hok
    by_cases hbad : old.statusCounts.get st + delta < 0 ∨
        (applyChangeToCounts old.statusCounts st delta).available < 0 ∨
        (applyChangeToCounts old.statusCounts st delta).in_use < 0 ∨
        (applyChangeToCounts old.statusCounts st delta).maintenance < 0
    · rw [if_pos hbad] at hok
      exact Except.noConfusion hok
    · rw [if_neg hbad] at hok
      by_cases hsum : sumCounts (applyChangeToCounts old.statusCounts st delta) ≠
          old.quantity
      · rw [if_pos hsum] at hok
        exact Except.noConfusion hok
      · rw [if_neg hsum] at hok
        rw [Except.ok.injEq, Prod.mk.injEq] at hok
        obtain ⟨h1, h2⟩ := hok
        subst h2
        push_neg at hsum
        exact ⟨rfl, rfl, get_applyChange_same old.statusCounts st delta,
          fun st2 h2 => get_applyChange_other old.statusCounts st st2 delta h2,
          hsum⟩

/-- A record whose counts do not sum to its quantity, so that a one-sided
shift can succeed under the strict sum check. -/
def skewRec : Equipment :=
  { id := 3
    name := "Gauze"
    category := .consumables
    quantity := 7
    costPerUnit := 1
    statusCounts := ⟨3, 1, 1⟩
    notes := ""
    totalCost := 7
    createdAt := 0
    updatedAt := 0 }

/-- A store holding just `skewRec`. -/
def skewStore : Store := ⟨[skewRec], 4⟩

/-- `skewRec` after a successful `PatchStatus(3, available, +2)`. -/
def skewPatched : Equipment :=
  { id := 3
    name := "Gauze"
    category := .consumables
    quantity := 7
    costPerUnit := 1
    statusCounts := ⟨5, 1, 1⟩
    notes := ""
    totalCost := 7
    createdAt := 0
    updatedAt := 9 }

/-- C4 witness: the frame conditions at a concrete successful patch. -/
theorem c4_patch_frame_witness :
    ∃ r, skewStore.find 3 = some r ∧
      skewPatched.quantity = r.quantity ∧
      skewPatched.statusCounts = applyChangeToCounts r.statusCounts .available 2 ∧
      skewPatched.statusCounts.get .available = r.statusCounts.get .available + 2 ∧
      (∀ st2, st2 ≠ Status.available →
        skewPatched.statusCounts.get st2 = r.statusCounts.get st2) ∧
      sumCounts skewPatched.statusCounts = skewPatched.quantity :=
  c4_patch_frame skewStore 3 .available 2 9 ⟨[skewPatched], 4⟩ skewPatched rfl

/-- Every persisted record carries `totalCost = quantity × costPerUnit`. -/
def totalCostInvariant (s : Store) : Prop :=
  ∀ r ∈ s.records, r.totalCost = (r.quantity : Rat) * r.costPerUnit

theorem applyOp_totalCost (s : Store) (op : Op) (h : totalCostInvariant s) :
    totalCostInvariant (applyOp s op) := by
  cases op with
  | create f now =>
    by_cases hf : formAccepted f
    · intro r hr
      simp only [applyOp, createEquipment, if_pos hf, List.mem_append,
        List.mem_singleton] at hr
      rcases hr with hr | rfl
      · exact h r hr
      · rfl
    · simpa [applyOp, createEquipment, hf] using h
  | update id f now =>
    cases hfind : s.find id with
    | none => simpa [applyOp, updateEquipment, hfind] using h
    | some old =>
      by_cases hf : formAccepted f
      · intro r hr
        simp only [applyOp, updateEquipment, hfind, if_pos hf] at hr
        rcases mem_replace hr with rfl | hr
        · rfl
        · exact h r hr
      · simpa [applyOp, updateEquipment, hfind, hf] using h
  | patch id st delta now =>
    cases hfind : s.find id with
    | none => simpa [applyOp, patchStatus, hfind] using h
    | some old =>
      set nc := applyChangeToCounts old.statusCounts st delta with hnc
      by_cases hbad : old.statusCounts.get st + delta < 0 ∨ nc.available < 0 ∨
          nc.in_use < 0 ∨ nc.maintenance < 0
      · simpa [applyOp, patchStatus, hfind, hbad] using h
      · by_cases hsum : sumCounts nc ≠ old.quantity
        · simpa [applyOp, patchStatus, hfind, hbad, hsum] using h
        · intro r hr
          simp only [applyOp, patchStatus, hfind, ← hnc, if_neg hbad,
            if_neg hsum] at hr
          rcases mem_replace hr with rfl | hr
          · exact h old (List.mem_of_find?_eq_some hfind)
          · exact h r hr
  | delete id =>
    cases hfind : s.find id with
    | none => simpa [applyOp, deleteEquipment, hfind] using h
    | some old =>
      intro r hr
      simp only [applyOp, deleteEquipment, hfind, List.mem_filter] at hr
      exact h r hr.1

/-- C5: `totalCost = quantity × costPerUnit` holds for every persisted
record after any request sequence, and the Forceps scenario (quantity 10,
costPerUnit 5.0) yields totalCost 50.0. -/
theorem c5_totalCost :
    (∀ s ops, totalCostInvariant s → totalCostInvariant (runOps s ops)) ∧
    ((createEquipment Store.empty forcepsInput 0).toOption.map
      (fun p => p.2.totalCost) = some 50) := by
  constructor
  · intro s ops h
    induction ops generalizing s with
    | nil => exact h
    | cons op t ih => exact ih (applyOp s op) (applyOp_totalCost s op h)
  · have h : (createEquipment Store.empty forcepsInput 0).toOption.map
        (fun p => p.2.totalCost) = some (((10 : Int) : Rat) * 5) := rfl
    rw [h]
    norm_num

/-- C5 witness: the totalCost invariant after the demo request sequence. -/
theorem c5_totalCost_witness :
    totalCostInvariant (runOps Store.empty demoOps) :=
  c5_totalCost.1 Store.empty demoOps (by intro r hr; simp [Store.empty] at hr)

theorem length_eq_sum_ones {α : Type} (l : List α) :
    l.length = (l.map (fun _ => (1 : Nat))).sum := by
  induction l with
  | nil => simp
  | cons a t ih =>
    simp only [List.map_cons, List.sum_cons, List.length_cons, ih]
    omega

theorem indicator_sum_categories {M : Type} [AddCommMonoid M] (r : Equipment)
    (v : M) :
    (allCategories.map (fun c => if r.category == c then v else 0)).sum = v := by
  cases hr : r.category <;> simp [allCategories, hr]

theorem sum_over_categories {M : Type} [AddCommMonoid M]
    (records : List Equipment) (w : Equipment → M) :
    (allCategories.map
      (fun c => ((records.filter (fun r => r.category == c)).map w).sum)).sum =
      (records.map w).sum := by
  induction records with
  | nil => simp
  | cons r t ih =>
    have hsplit : ∀ c : Category,
        (((r :: t).filter (fun x => x.category == c)).map w).sum =
          (if r.category == c then w r else 0) +
            ((t.filter (fun x => x.category == c)).map w).sum := by
      intro c
      by_cases hc : (r.category == c) = true
      · simp [List.filter_cons, hc]
      · simp [List.filter_cons, hc]
    simp only [hsplit]
    rw [List.sum_map_add, indicator_sum_categories r (w r), ih]
    simp

theorem listEquipment_noFilter (records : List Equipment) :
    listEquipment noFilter records = records := by
  rw [listEquipment, List.filter_eq_self]
  intro a _
  rfl

/-- C6: `totalUnits` is the quantity sum over the unfiltered List, and
the `categoryTotals` buckets partition the record set — the per-category
counts, units and costs sum back to `totalEquipmentTypes`, `totalUnits`
and `totalCost`, with each record in exactly the bucket of its own
category. -/
theorem c6_summary_totals (records : List Equipment) :
    (summary records).totalUnits =
      ((listEquipment noFilter records).map (fun r => r.quantity)).sum ∧
    (allCategories.map
      (fun c => ((summary records).categoryTotals c).count)).sum =
      (summary records).totalEquipmentTypes ∧
    (allCategories.map
      (fun c => ((summary records).categoryTotals c).units)).sum =
      (summary records).totalUnits ∧
    (allCategories.map
      (fun c => ((summary records).categoryTotals c).cost)).sum =
      (summary records).totalCost := by
  refine ⟨?_, ?_, ?_, ?_⟩
  · rw [listEquipment_noFilter]
    rfl
  · have h := sum_over_categories records (fun _ => (1 : Nat))
    simp only [summary, categoryTotal, ← length_eq_sum_ones] at h ⊢
    exact h
  · exact sum_over_categories records (fun r => r.quantity)
  · exact sum_over_categories records (fun r => r.totalCost)

/-- C7: an unfiltered List returns every record exactly once (it is the
record sequence itself); a category-filtered List returns only records
of that exact category; a filter matching nothing yields the empty
sequence, not an error. -/
theorem c7_list_filters (records : List Equipment) (c : Category) :
    listEquipment noFilter records = records ∧
    (∀ r ∈ listEquipment ⟨some c, none, none⟩ records, r.category = c) ∧
    ((∀ r ∈ records, r.category ≠ c) →
      listEquipment ⟨some c, none, none⟩ records = []) := by
  refine ⟨listEquipment_noFilter records, ?_, ?_⟩
  · intro r hr
    rw [listEquipment, List.mem_filter] at hr
    have h2 := hr.2
    simp only [matchesFilter, Bool.and_true, beq_iff_eq] at h2
    exact h2
  · intro hnone
    rw [listEquipment, List.filter_eq_nil_iff]
    intro a ha
    simp only [matchesFilter, Bool.and_true, beq_iff_eq]
    exact hnone a ha

/-- A one-record set containing no electronics. -/
def furnitureRec : Equipment :=
  { id := 9
    name := "Bed"
    category := .furniture
    quantity := 2
    costPerUnit := 3
    statusCounts := ⟨2, 0, 0⟩
    notes := ""
    totalCost := 6
    createdAt := 0
    updatedAt := 0 }

/-- C7 witness: filtering a record set that has no electronics by the
electronics category returns the empty sequence. -/
theorem c7_list_filters_witness :
    listEquipment ⟨some .electronics, none, none⟩ [furnitureRec] = [] :=
  (c7_list_filters [furnitureRec] .electronics).2.2 (by decide)

/-- C9: `readStatusCounts` reads the three bucket values from the
`counts` object when that field is present, otherwise from the top-level
fields, and a missing field yields 0; it is a total function returning a
triple of numbers. -/
theorem c9_readStatusCounts (item : RawItem) :
    (∀ c, item.counts = some c →
      readStatusCounts item =
        ⟨c.available.getD 0, c.in_use.getD 0, c.maintenance.getD 0⟩) ∧
    (item.counts = none →
      readStatusCounts item =
        ⟨item.available.getD 0, item.in_use.getD 0, item.maintenance.getD 0⟩) := by
  have hnum : ∀ o : Option Rat, numOrZero o = o.getD 0 := by
    intro o; cases o <;> rfl
  constructor
  · intro c hc
    simp [readStatusCounts, hc, hnum]
  · intro hc
    simp [readStatusCounts, hc, hnum]

/-- An item carrying flat count fields, with `in_use` missing. -/
def flatItem : RawItem := ⟨none, some 3, none, some 2⟩

/-- C9 witness: the flat-field fallback at a concrete item with a
missing field. -/
theorem c9_readStatusCounts_witness :
    readStatusCounts flatItem =
      ⟨flatItem.available.getD 0, flatItem.in_use.getD 0,
        flatItem.maintenance.getD 0⟩ :=
  (c9_readStatusCounts flatItem).2 rfl

theorem handleChange_nonneg (g : FormData) (st : Status) (v : Int)
    (ha : 0 ≤ g.statusCounts.available) (hi : 0 ≤ g.statusCounts.in_use)
    (hm : 0 ≤ g.statusCounts.maintenance) :
    0 ≤ (handleStatusCountChange g st v).statusCounts.available ∧
    0 ≤ (handleStatusCountChange g st v).statusCounts.in_use ∧
    0 ≤ (handleStatusCountChange g st v).statusCounts.maintenance := by
  cases st <;> refine ⟨?_, ?_, ?_⟩ <;>
    (simp only [handleStatusCountChange, StatusCounts.set]; omega)

theorem runStatusEdits_nonneg (edits : List (Status × String)) (fd : FormData)
    (h : 0 ≤ fd.statusCounts.available ∧ 0 ≤ fd.statusCounts.in_use ∧
      0 ≤ fd.statusCounts.maintenance) :
    0 ≤ (runStatusEdits fd edits).statusCounts.available ∧
    0 ≤ (runStatusEdits fd edits).statusCounts.in_use ∧
    0 ≤ (runStatusEdits fd edits).statusCounts.maintenance := by
  induction edits generalizing fd with
  | nil => exact h
  | cons e t ih =>
    exact ih (statusEdit fd e.1 e.2)
      (handleChange_nonneg fd e.1 (numberInputValue e.2) h.1 h.2.1 h.2.2)

/-- C10: starting from non-negative status counts (as the initial form
state is), every sequence of status-count edits leaves all three fields
≥ 0; each edit stores `max 0 value` into the edited field, and an
unparseable numeric input is coerced to 0 before being stored. -/
theorem c10_form_counts_nonneg (fd : FormData)
    (edits : List (Status × String))
    (ha : 0 ≤ fd.statusCounts.available) (hi : 0 ≤ fd.statusCounts.in_use)
    (hm : 0 ≤ fd.statusCounts.maintenance) :
    (0 ≤ (runStatusEdits fd edits).statusCounts.available ∧
     0 ≤ (runStatusEdits fd edits).statusCounts.in_use ∧
     0 ≤ (runStatusEdits fd edits).statusCounts.maintenance) ∧
    (∀ st raw, (statusEdit fd st raw).statusCounts.get st =
      max 0 (numberInputValue raw)) ∧
    (∀ raw, jsParseInt raw = none → numberInputValue raw = 0) := by
  refine ⟨runStatusEdits_nonneg edits fd ⟨ha, hi, hm⟩, ?_, ?_⟩
  · intro st raw
    cases st <;> rfl
  · intro raw h
    simp [numberInputValue, h]

/-- A sequence of edits containing a negative value, an unparseable value
and a blank value. -/
def demoEdits : List (Status × String) :=
  [(.available, "4"), (.in_use, "-2"), (.maintenance, "abc"),
   (.available, "")]

/-- C10 witness: every field is ≥ 0 after the demo edits from the
initial form state. -/
theorem c10_form_counts_nonneg_witness :
    0 ≤ (runStatusEdits initialFormData demoEdits).statusCounts.available ∧
    0 ≤ (runStatusEdits initialFormData demoEdits).statusCounts.in_use ∧
    0 ≤ (runStatusEdits initialFormData demoEdits).statusCounts.maintenance :=
  (c10_form_counts_nonneg initialFormData demoEdits (by decide) (by decide)
    (by decide)).1

end Gnr
